import Mathlib

/-!
# Verification of the wraps-js email core

Shallow embedding, in Lean 4, of the core email composition / threading /
batching / status-aggregation logic of the `wraps-team/wraps-js` repository,
together with theorems settling the specification claims about it.

Source files embedded:
* `packages/email/src/events.ts` (status aggregation),
* `packages/email/src/utils/mime.ts` (raw MIME message builder),
* `packages/email/src/batch.ts` (batched dispatch),
* the inbox module (`WrapsInbox.forward` / `WrapsInbox.reply`), and
* `normalizeEmailAddress` from `utils/validation.ts`.

Conventions used throughout:
* JavaScript strings are Lean `String`s; `undefined`/`null` optionality is
  `Option`; JS truthiness of an optional string (`undefined`, `null` and
  `""` are falsy) is made explicit via `strTruthy` / `optTruthy`.
* Byte buffers are `List Nat` (each element a byte value).
* Raw MIME text is modelled as its list of CRLF-separated physical lines,
  exactly mirroring the `lines : string[]` array that
  `buildRawEmailMessage` pushes to before the final `lines.join('\r\n')`.
* Code that throws on a given input is modelled as returning `none` /
  `.error` on that input.
-/

namespace WrapsEmail

/-! ## Status aggregation (`packages/email/src/events.ts`) -/

/-- One lifecycle event, as consumed by `deriveStatus` (`events.ts`).
`metadata` is never read by the status computation and is omitted. -/
structure EmailEvent where
  type : String
  timestamp : Int
deriving Repr, DecidableEq

/-- `EVENT_TYPE_MAP` from `events.ts`: SES event names to lifecycle statuses. -/
def EVENT_TYPE_MAP : List (String × String) :=
  [("send", "sent"), ("delivery", "delivered"), ("open", "opened"),
   ("click", "clicked"), ("bounce", "bounced"), ("complaint", "complained"),
   ("suppressed", "suppressed")]

/-- `STATUS_PRIORITY` from `events.ts`: severity rank of each status. -/
def STATUS_PRIORITY : List (String × Nat) :=
  [("sent", 3), ("delivered", 4), ("opened", 5), ("clicked", 6),
   ("suppressed", 7), ("complained", 8), ("bounced", 9)]

/-- JS object-literal lookup `m[k]`, returning `none` for a missing key. -/
def recordLookup {α : Type} (m : List (String × α)) (k : String) : Option α :=
  (m.find? (fun p => p.1 == k)).map (fun p => p.2)

/-- JS `String.prototype.toLowerCase()`, embedded as per-character ASCII
lowercasing of the character list (all strings this code lowercases are
ASCII event types and filename extensions). -/
def lowerStr (s : String) : String :=
  String.mk (s.data.map Char.toLower)

/-- `EVENT_TYPE_MAP[normalized] || normalized` applied to a lowercased event
type (`events.ts`, `deriveStatus` loop body).  Every value in the map is a
nonempty string, so JS `||` coincides with `Option.getD`. -/
def mappedType (t : String) : String :=
  let normalized := lowerStr t
  (recordLookup EVENT_TYPE_MAP normalized).getD normalized

/-- `STATUS_PRIORITY[mapped] || 0` (`events.ts`): the severity rank of a
status string, `0` for unrecognized statuses. -/
def priorityOf (s : String) : Nat :=
  (recordLookup STATUS_PRIORITY s).getD 0

/-- One iteration of the `for (const event of events)` loop of
`deriveStatus`: the accumulator is the pair of the two mutable variables
`(highest, highestPriority)`. -/
def deriveStep (acc : String × Nat) (ev : EmailEvent) : String × Nat :=
  let mapped := mappedType ev.type
  let pr := priorityOf mapped
  if acc.2 < pr then (mapped, pr) else acc

/-- The `(highest, highestPriority)` state after the whole loop of
`deriveStatus`, starting from `('sent', STATUS_PRIORITY.sent)`. -/
def deriveState (events : List EmailEvent) : String × Nat :=
  events.foldl deriveStep ("sent", priorityOf "sent")

/-- `deriveStatus` from `events.ts`. -/
def deriveStatus (events : List EmailEvent) : String :=
  (deriveState events).1

/-! ## Reply subject (`WrapsInbox.reply`) -/

/-- `/^Re:/i.test(s)`: the first three characters of `s`, lowercased, are
`re:`.  (The JS regex is ASCII case-insensitive without the `u` flag, which
is exactly `Char.toLower` folding on the three pattern characters.) -/
def testReCI (s : String) : Bool :=
  (s.data.take 3).map Char.toLower == ['r', 'e', ':']

/-- The reply subject computation of `WrapsInbox.reply`:
`/^Re:/i.test(email.subject) ? email.subject : `Re: ${email.subject}``. -/
def replySubject (s : String) : String :=
  if testReCI s then s else "Re: " ++ s

/-! ## MIME message builder (`packages/email/src/utils/mime.ts`)

`generateBoundary` mixes `Date.now()` with `Math.random()`; following the
spec's injectable-generator reading, the two boundary tokens are passed to
the builder as explicit arguments. -/

/-- `EmailAddress` from `types.ts`: email plus optional display name. -/
structure EmailAddress where
  email : String
  name : Option String
deriving Repr, DecidableEq

/-- A `string | EmailAddress` union value. -/
inductive AddressInput where
  | str (s : String)
  | obj (a : EmailAddress)
deriving Repr, DecidableEq

/-- JS truthiness of an optional string: `undefined` and `""` are falsy. -/
def strTruthy : Option String → Bool
  | some s => s != ""
  | none => false

/-- `name.replace(/\\/g, '\\\\')`: double every backslash. -/
def escapeBackslashes (n : String) : String :=
  String.mk (n.data.flatMap (fun c => if c = '\\' then ['\\', '\\'] else [c]))

/-- `.replace(/"/g, '\\"')`: escape every double quote. -/
def escapeQuotes (n : String) : String :=
  String.mk (n.data.flatMap (fun c => if c = '"' then ['\\', '"'] else [c]))

/-- `formatEmailAddress` from `mime.ts`: plain strings pass through, a
truthy display name is backslash-escaped and quoted. -/
def formatEmailAddress : AddressInput → String
  | .str s => s
  | .obj a =>
    if strTruthy a.name then
      "\"" ++ escapeQuotes (escapeBackslashes (a.name.getD "")) ++ "\" <" ++ a.email ++ ">"
    else a.email

/-- `Array.prototype.join(sep)`. -/
def joinSep (sep : String) : List String → String
  | [] => ""
  | [x] => x
  | x :: y :: xs => x ++ sep ++ joinSep sep (y :: xs)

/-- `formatEmailAddresses` from `mime.ts`; the JS wrapping of a single
value into a one-element array is pre-applied by the caller of the
embedding. -/
def formatEmailAddresses (addrs : List AddressInput) : String :=
  joinSep ", " (addrs.map formatEmailAddress)

/-- `normalizeEmailAddress` from `utils/validation.ts`: like
`formatEmailAddress` but with no escaping inside the display name. -/
def normalizeEmailAddress : AddressInput → String
  | .str s => s
  | .obj a =>
    if strTruthy a.name then "\"" ++ a.name.getD "" ++ "\" <" ++ a.email ++ ">"
    else a.email

/-- `normalizeEmailAddresses` from `utils/validation.ts`. -/
def normalizeEmailAddresses (addrs : List AddressInput) : List String :=
  addrs.map normalizeEmailAddress

/-- `Buffer | string` attachment content (`types.ts`): raw bytes, or a
string that the builder treats as base64 text. -/
inductive AttachmentContent where
  | buffer (bytes : List Nat)
  | str (s : String)
deriving Repr, DecidableEq

/-- `Attachment` from `types.ts`. -/
structure Attachment where
  filename : String
  content : AttachmentContent
  contentType : Option String := none
  encoding : Option String := none
deriving Repr, DecidableEq

/-- The standard base64 alphabet. -/
def B64_ALPHABET : List Char :=
  "ABCDEFGHIJKLMNOPQRSTUVWXYZabcdefghijklmnopqrstuvwxyz0123456789+/".data

/-- The base64 digit character for a 6-bit value. -/
def b64Char (n : Nat) : Char := B64_ALPHABET.getD n 'A'

/-- Standard base64 encoding of a byte list (`buffer.toString('base64')`),
three bytes to four digits, with `=` padding. -/
def base64EncodeChars : List Nat → List Char
  | [] => []
  | [a] => [b64Char ((a % 256) / 4), b64Char ((a % 4) * 16), '=', '=']
  | [a, b] =>
    [b64Char ((a % 256) / 4), b64Char ((a % 4) * 16 + (b % 256) / 16),
     b64Char ((b % 16) * 4), '=']
  | a :: b :: c :: rest =>
    b64Char ((a % 256) / 4) :: b64Char ((a % 4) * 16 + (b % 256) / 16) ::
    b64Char ((b % 16) * 4 + (c % 256) / 64) :: b64Char (c % 64) ::
    base64EncodeChars rest

/-- `buffer.toString('base64')` as a string. -/
def base64Encode (bytes : List Nat) : String := String.mk (base64EncodeChars bytes)

/-- 6-bit value of a base64 digit, `none` for a non-alphabet character. -/
def b64Val (c : Char) : Option Nat :=
  (B64_ALPHABET.indexOf? c).map (fun i => i)

/-- Bit-accumulator base64 decoder: `acc` holds `nbits` pending bits; a
byte is emitted whenever eight bits are available.  Non-alphabet
characters are skipped and `=` ends the input, as in Node's decoder. -/
def base64DecodeAux : List Char → Nat → Nat → List Nat
  | [], _, _ => []
  | c :: cs, acc, nbits =>
    if c = '=' then []
    else
      match b64Val c with
      | none => base64DecodeAux cs acc nbits
      | some v =>
        let acc2 := acc * 64 + v
        let nbits2 := nbits + 6
        if 8 ≤ nbits2 then
          (acc2 / 2 ^ (nbits2 - 8)) :: base64DecodeAux cs (acc2 % 2 ^ (nbits2 - 8)) (nbits2 - 8)
        else base64DecodeAux cs acc2 nbits2

/-- `Buffer.from(s, 'base64')` (`mime.ts`, `encodeAttachment`): decode a
base64 string to bytes. -/
def base64Decode (s : String) : List Nat := base64DecodeAux s.data 0 0

/-- The byte content `encodeAttachment` re-encodes: the buffer itself, or
the base64-decoded bytes of a string content. -/
def contentBytes : AttachmentContent → List Nat
  | .buffer bytes => bytes
  | .str s => base64Decode s

/-- `base64.match(/.{1,76}/g)` from `encodeAttachment`: split a character
list into consecutive chunks of at most 76 characters. -/
def chunk76 : List Char → List (List Char)
  | [] => []
  | c :: cs => (c :: cs.take 75) :: chunk76 (cs.drop 75)
termination_by l => l.length
decreasing_by simp [List.length_drop]; omega

/-- The ≤76-character base64 lines `encodeAttachment` produces for an
attachment content. -/
def encodeAttachmentLines (content : AttachmentContent) : List String :=
  (chunk76 (base64Encode (contentBytes content)).data).map String.mk

/-- `encodeAttachment` from `mime.ts`: base64-encode the content and join
the 76-character chunks with CRLF.  (The JS `|| base64` fallback only
fires when `base64` is the empty string, where both sides are `""`.) -/
def encodeAttachment (content : AttachmentContent) : String :=
  joinSep "\r\n" (encodeAttachmentLines content)

/-- The extension-to-MIME-type table from `getMimeType` (`mime.ts`). -/
def mimeTypes : List (String × String) :=
  [("pdf", "application/pdf"), ("doc", "application/msword"),
   ("docx", "application/vnd.openxmlformats-officedocument.wordprocessingml.document"),
   ("xls", "application/vnd.ms-excel"),
   ("xlsx", "application/vnd.openxmlformats-officedocument.spreadsheetml.sheet"),
   ("png", "image/png"), ("jpg", "image/jpeg"), ("jpeg", "image/jpeg"),
   ("gif", "image/gif"), ("txt", "text/plain"), ("html", "text/html"),
   ("csv", "text/csv"), ("zip", "application/zip"), ("json", "application/json")]

/-- `String.prototype.split(sep)` for a single-character separator. -/
def splitChars (sep : Char) : List Char → List (List Char)
  | [] => [[]]
  | c :: cs =>
    match splitChars sep cs with
    | [] => [[]]
    | g :: gs => if c = sep then [] :: g :: gs else (c :: g) :: gs

/-- `filename.split('.').pop()?.toLowerCase()` from `getMimeType`:
`split` always yields a non-empty array, so `pop` is its last element. -/
def extOf (filename : String) : String :=
  lowerStr (String.mk ((splitChars '.' filename.data).getLastD []))

/-- `getMimeType` from `mime.ts`: a truthy provided type wins, else the
extension table, else `application/octet-stream`. -/
def getMimeType (filename : String) (providedType : Option String) : String :=
  if strTruthy providedType then providedType.getD ""
  else (recordLookup mimeTypes (extOf filename)).getD "application/octet-stream"

/-- `attachment.encoding || 'base64'`. -/
def effEncoding (e : Option String) : String :=
  match e with
  | some s => if s == "" then "base64" else s
  | none => "base64"

/-- `typeof content === 'string' ? content : content.toString()` from the
non-base64 branch of the attachment loop.  `Buffer.toString()` is embedded
as the identity character decoding, faithful for ASCII byte content. -/
def contentToString : AttachmentContent → String
  | .str s => s
  | .buffer bytes => String.mk (bytes.map Char.ofNat)

/-- `BuildRawEmailParams` from `mime.ts`.  `attachments` is declared
required in the TS interface, but `WrapsInbox.forward` (wrapped mode) and
`WrapsInbox.reply` call the builder with it absent, so the embedding keeps
it optional; `none` models `undefined` at the call site.  Optional address
lists model `undefined` as `none` (a present value of these union types is
treated as truthy, which holds for arrays and nonempty strings). -/
structure BuildRawEmailParams where
  fromAddr : AddressInput
  toAddrs : List AddressInput
  cc : Option (List AddressInput) := none
  bcc : Option (List AddressInput) := none
  replyTo : Option (List AddressInput) := none
  subject : String
  html : Option String := none
  text : Option String := none
  attachments : Option (List Attachment) := none
deriving Repr, DecidableEq

/-- The header lines `buildRawEmailMessage` pushes before the body,
including the fixed top-level `multipart/mixed` content type and the blank
separator line. -/
def headerLines (mainBoundary : String) (p : BuildRawEmailParams) : List String :=
  ["From: " ++ formatEmailAddress p.fromAddr,
   "To: " ++ formatEmailAddresses p.toAddrs]
  ++ (match p.cc with
      | some cs => ["Cc: " ++ formatEmailAddresses cs]
      | none => [])
  ++ (match p.bcc with
      | some bs => ["Bcc: " ++ formatEmailAddresses bs]
      | none => [])
  ++ (match p.replyTo with
      | some rs => ["Reply-To: " ++ formatEmailAddresses rs]
      | none => [])
  ++ ["Subject: " ++ p.subject,
      "MIME-Version: 1.0",
      "Content-Type: multipart/mixed; boundary=\"" ++ mainBoundary ++ "\"",
      ""]

/-- The body lines of `buildRawEmailMessage`: `multipart/alternative`
when both text and html are truthy, a bare part when only one is, nothing
otherwise. -/
def bodyLines (altBoundary : String) (p : BuildRawEmailParams) : List String :=
  if strTruthy p.text && strTruthy p.html then
    ["Content-Type: multipart/alternative; boundary=\"" ++ altBoundary ++ "\"", "",
     "--" ++ altBoundary,
     "Content-Type: text/plain; charset=UTF-8",
     "Content-Transfer-Encoding: 7bit", "",
     p.text.getD "", "",
     "--" ++ altBoundary,
     "Content-Type: text/html; charset=UTF-8",
     "Content-Transfer-Encoding: 7bit", "",
     p.html.getD "", "",
     "--" ++ altBoundary ++ "--"]
  else if strTruthy p.html then
    ["Content-Type: text/html; charset=UTF-8", "Content-Transfer-Encoding: 7bit", "",
     p.html.getD ""]
  else if strTruthy p.text then
    ["Content-Type: text/plain; charset=UTF-8", "Content-Transfer-Encoding: 7bit", "",
     p.text.getD ""]
  else []

/-- The lines the attachment loop of `buildRawEmailMessage` pushes for one
attachment. -/
def attachmentLines (mainBoundary : String) (att : Attachment) : List String :=
  let mimeType := getMimeType att.filename att.contentType
  let encoding := effEncoding att.encoding
  ["--" ++ mainBoundary,
   "Content-Type: " ++ mimeType ++ "; name=\"" ++ att.filename ++ "\"",
   "Content-Disposition: attachment; filename=\"" ++ att.filename ++ "\"",
   "Content-Transfer-Encoding: " ++ encoding,
   "",
   (if encoding == "base64" then encodeAttachment att.content
    else contentToString att.content),
   ""]

/-- The complete `lines` array of `buildRawEmailMessage` for a present
attachment list. -/
def buildRawCore (mainBoundary altBoundary : String) (p : BuildRawEmailParams)
    (atts : List Attachment) : List String :=
  headerLines mainBoundary p
  ++ ["--" ++ mainBoundary]
  ++ bodyLines altBoundary p
  ++ [""]
  ++ (atts.map (attachmentLines mainBoundary)).flatten
  ++ ["--" ++ mainBoundary ++ "--"]

/-- `buildRawEmailMessage` from `mime.ts`, up to the final
`lines.join('\r\n')`: the list of CRLF-separated lines.  When
`attachments` is absent the JS `for (const attachment of
params.attachments)` throws a `TypeError` and no message is produced,
which the embedding models as `none`. -/
def buildRawEmailLines (mainBoundary altBoundary : String)
    (p : BuildRawEmailParams) : Option (List String) :=
  match p.attachments with
  | none => none
  | some atts => some (buildRawCore mainBoundary altBoundary p atts)

/-- `buildRawEmailMessage` including the final CRLF join. -/
def buildRawEmailMessage (mainBoundary altBoundary : String)
    (p : BuildRawEmailParams) : Option String :=
  (buildRawEmailLines mainBoundary altBoundary p).map (joinSep "\r\n")

/-- `s.startsWith(pat)` by character comparison. -/
def startsWithStr (pat s : String) : Bool :=
  s.data.take pat.data.length == pat.data

/-- The header block of a line list: everything before the first blank
line. -/
def headerBlock (ls : List String) : List String :=
  ls.takeWhile (fun l => l != "")

/-- The `Content-Type` header line of a line list, if any. -/
def topContentType (ls : List String) : Option String :=
  (headerBlock ls).find? (fun l => startsWithStr "Content-Type:" l)

/-! ## Inbox threading (`WrapsInbox.forward` / `WrapsInbox.reply`)

The stored inbound message and the raw MIME bytes come from the external
store; the embedding covers the pure rewriting / composition the inbox
performs on them.  Raw MIME text is represented as its list of
CRLF-separated physical lines. -/

/-- `InboxEmailAddress` from `types.ts` (`address` and `name` are both
required strings; an absent display name is the empty string). -/
structure InboxEmailAddress where
  address : String
  name : String
deriving Repr, DecidableEq

/-- The fields of `InboxEmail` (`types.ts`) that `forward` and `reply`
read.  `headers` is the parsed header record; `html`/`text` are
`string | null`. -/
structure InboxEmail where
  emailId : String
  messageId : String
  fromAddr : InboxEmailAddress
  toAddrs : List InboxEmailAddress
  subject : String
  date : String
  html : Option String := none
  text : Option String := none
  headers : List (String × String) := []
deriving Repr, DecidableEq

/-- `InboxForwardOptions` from `types.ts`.  The source field `addPrefix`
is embedded as `addPfx` (the source spelling is not a usable Lean name
here). -/
structure InboxForwardOptions where
  toAddrs : List AddressInput
  fromAddr : AddressInput
  passthrough : Option Bool := none
  addPfx : Option String := none
  text : Option String := none
  html : Option String := none

/-- `InboxReplyOptions` from `types.ts`. -/
structure InboxReplyOptions where
  fromAddr : AddressInput
  text : Option String := none
  html : Option String := none
  attachments : Option (List Attachment) := none

/-- `` `${name} <${address}>` `` with a truthy-name guard: the rendering
`email.from.name ? `${email.from.name} <${email.from.address}>` :
email.from.address` used by `reply` and by the wrapped-forward banner. -/
def inboxAddrToString (a : InboxEmailAddress) : String :=
  if a.name != "" then a.name ++ " <" ++ a.address ++ ">" else a.address

/-- Whether one physical line is matched by the anchored case-insensitive
header regex `/^name:\s*.+$/im` (with `name` given lowercase, colon
included): the line starts with the header name, case-insensitively, and
has at least one further character.  (The JS pathology where a line equal
to just `Name:` lets `\s*` consume the CRLF and match across two physical
lines is outside this line model; no claim input exercises it.) -/
def lineMatches (name : String) (l : String) : Bool :=
  decide ((l.data.take name.data.length).map Char.toLower = name.data) &&
  decide (name.data.length < l.data.length)

/-- `String.prototype.replace` with a non-global anchored line regex, on
the CRLF-split line list: rewrite the first matching line, keep everything
else.  (The embedding inserts the replacement text literally; none of the
replacement strings used here contain JS `$`-template escapes.) -/
def replaceFirstLine (pred : String → Bool) (repl : String → String) :
    List String → List String
  | [] => []
  | l :: ls => if pred l then repl l :: ls else l :: replaceFirstLine pred repl ls

/-- The text captured by `\s*(.+)$` applied to everything after the header
name: leading whitespace is stripped greedily; on an all-whitespace rest,
backtracking leaves exactly the final character in the capture. -/
def captureAfter (rest : List Char) : List Char :=
  let r := rest.dropWhile (fun c => c.isWhitespace)
  if r = [] then rest.drop (rest.length - 1) else r

/-- `rawMime.replace(/^Subject:\s*(.+)$/im, `Subject: ${options.addPrefix} $1`)`
applied to one matching line (`"Subject:"` is 8 characters long). -/
def subjectRewrite (pfx : String) (l : String) : String :=
  "Subject: " ++ pfx ++ " " ++ String.mk (captureAfter (l.data.drop 8))

/-- The passthrough branch of `WrapsInbox.forward`: rewrite the first
`From:` line to the normalized new sender, then the first `To:` line to
the joined normalized recipients, then (for a truthy `addPrefix`) prefix
the first `Subject:` line. -/
def forwardPassthroughLines (rawLines : List String)
    (options : InboxForwardOptions) : List String :=
  let fromStr := normalizeEmailAddress options.fromAddr
  let toStr := joinSep ", " (normalizeEmailAddresses options.toAddrs)
  let s1 := replaceFirstLine (lineMatches "from:")
    (fun _ => "From: " ++ fromStr) rawLines
  let s2 := replaceFirstLine (lineMatches "to:")
    (fun _ => "To: " ++ toStr) s1
  if strTruthy options.addPfx then
    replaceFirstLine (lineMatches "subject:")
      (subjectRewrite (options.addPfx.getD "")) s2
  else s2

/-- The literal wrapped-forward banner from `WrapsInbox.forward`. -/
def forwardBanner : String := "---------- Forwarded message ----------"

/-- The `BuildRawEmailParams` object the wrapped branch of
`WrapsInbox.forward` hands to `buildRawEmailMessage`: prefix + subject,
banner-quoted text/html bodies, and — decisively — no `attachments`
member. -/
def forwardWrappedParams (email : InboxEmail)
    (options : InboxForwardOptions) : BuildRawEmailParams :=
  let pfx := options.addPfx.getD "Fwd:"
  let subject := pfx ++ " " ++ email.subject
  let fromInfo := "From: " ++ inboxAddrToString email.fromAddr
  let dateInfo := "Date: " ++ email.date
  let subjectInfo := "Subject: " ++ email.subject
  let toInfo := "To: " ++ joinSep ", " (email.toAddrs.map inboxAddrToString)
  let text : Option String :=
    if strTruthy options.text || strTruthy email.text then
      some ((if strTruthy options.text then options.text.getD "" ++ "\n\n" else "")
        ++ forwardBanner ++ "\n" ++ fromInfo ++ "\n" ++ dateInfo ++ "\n"
        ++ subjectInfo ++ "\n" ++ toInfo ++ "\n\n"
        ++ email.text.getD "")
    else none
  let html : Option String :=
    if strTruthy options.html || strTruthy email.html then
      some ((options.html.getD "")
        ++ ("<br><br><div style=\"border-top:1px solid #ccc;padding-top:10px\"><b>"
            ++ forwardBanner ++ "</b><br>" ++ fromInfo ++ "<br>" ++ dateInfo
            ++ "<br>" ++ subjectInfo ++ "<br>" ++ toInfo ++ "<br><br>")
        ++ (if strTruthy email.html then email.html.getD ""
            else "<pre>" ++ email.text.getD "" ++ "</pre>")
        ++ "</div>")
    else none
  { fromAddr := options.fromAddr, toAddrs := options.toAddrs,
    subject := subject, text := text, html := html, attachments := none }

/-- The raw lines the wrapped branch of `WrapsInbox.forward` builds (the
`attachments` member being absent, the builder throws: the result is
always `none`, see `buildRawEmailLines`). -/
def forwardWrappedRaw (mainBoundary altBoundary : String)
    (email : InboxEmail) (options : InboxForwardOptions) : Option (List String) :=
  buildRawEmailLines mainBoundary altBoundary (forwardWrappedParams email options)

/-- `email.headers?.references || email.headers?.References || ''` from
`WrapsInbox.reply`. -/
def lookupRefs (headers : List (String × String)) : String :=
  match recordLookup headers "references" with
  | some v => if v != "" then v else (recordLookup headers "References").getD ""
  | none => (recordLookup headers "References").getD ""

/-- The `customHeaders` record `WrapsInbox.reply` computes: for a truthy
stored message-id, `In-Reply-To` is that id and `References` appends it to
any truthy existing References value. -/
def replyCustomHeaders (email : InboxEmail) : List (String × String) :=
  if email.messageId != "" then
    let existingRefs := lookupRefs email.headers
    [("In-Reply-To", email.messageId),
     ("References",
      if existingRefs != "" then existingRefs ++ " " ++ email.messageId
      else email.messageId)]
  else []

/-- The `BuildRawEmailParams` object `WrapsInbox.reply` hands to
`buildRawEmailMessage`.  The source also places the `customHeaders` record
(see `replyCustomHeaders`) in this object literal, but
`BuildRawEmailParams` in `mime.ts` has no such member and
`buildRawEmailMessage` never reads it, so it is recorded separately and
does not reach the built message. -/
def replyParams (email : InboxEmail) (options : InboxReplyOptions) :
    BuildRawEmailParams :=
  { fromAddr := options.fromAddr,
    toAddrs := [.str (inboxAddrToString email.fromAddr)],
    subject := replySubject email.subject,
    text := options.text, html := options.html,
    attachments := options.attachments }

/-- The raw lines `WrapsInbox.reply` builds and hands to the transport. -/
def replyRaw (mainBoundary altBoundary : String) (email : InboxEmail)
    (options : InboxReplyOptions) : Option (List String) :=
  buildRawEmailLines mainBoundary altBoundary (replyParams email options)

/-! ## Batched dispatch (`packages/email/src/batch.ts`)

`sendBatch` talks to SES through `sendChunk`; the external bulk transport
is abstracted as a function from the window's starting offset and resolved
entries to either a thrown error (`.error`, covering both a rejected call
and the `missing BulkEmailEntryResults` case) or the per-entry outcome
list.  `renderReactEmail` is likewise abstracted as a function on opaque
react-element ids. -/

/-- `MAX_ENTRIES` from `batch.ts`. -/
def MAX_ENTRIES : Nat := 100

/-- `CHUNK_SIZE` from `batch.ts`. -/
def CHUNK_SIZE : Nat := 50

/-- `BatchEmailEntry` from `types.ts`; the react element is an opaque id
resolved through the injected renderer. -/
structure BatchEmailEntry where
  toAddr : AddressInput
  subject : String
  html : Option String := none
  text : Option String := none
  react : Option Nat := none
  tags : Option (List (String × String)) := none
deriving Repr, DecidableEq

/-- `ResolvedEntry` from `batch.ts`. -/
structure ResolvedEntry where
  toAddr : String
  subject : String
  html : String
  text : String
  tags : Option (List (String × String)) := none
deriving Repr, DecidableEq

/-- An error thrown before dispatch: a `ValidationError` (message, field)
or whatever `renderReactEmail` threw. -/
inductive BatchCallError where
  | validation (message field : String)
  | render
deriving Repr, DecidableEq

/-- JS truthiness of a `string | EmailAddress` value: the empty string is
falsy, an object is truthy. -/
def addrTruthy : AddressInput → Bool
  | .str s => s != ""
  | .obj _ => true

/-- The renderer: `renderReactEmail` returning `{html, text}`, abstracted
over react-element ids; `.error` models a thrown render failure. -/
def Renderer : Type := Nat → Except Unit (String × String)

/-- The body of one iteration of the `resolveEntries` loop (`batch.ts`):
validation checks in source order, then optional react rendering, then the
resolved entry. -/
def resolveEntry (render : Renderer) (i : Nat) (entry : BatchEmailEntry) :
    Except BatchCallError ResolvedEntry :=
  if entry.subject == "" then
    .error (.validation ("Entry " ++ toString i ++ ": missing required field \"subject\"")
      ("entries[" ++ toString i ++ "].subject"))
  else if !addrTruthy entry.toAddr then
    .error (.validation ("Entry " ++ toString i ++ ": missing required field \"to\"")
      ("entries[" ++ toString i ++ "].to"))
  else if !strTruthy entry.html && !strTruthy entry.text && entry.react.isNone then
    .error (.validation
      ("Entry " ++ toString i ++ ": must provide at least one of \"html\", \"text\", or \"react\"")
      ("entries[" ++ toString i ++ "]"))
  else if strTruthy entry.html && entry.react.isSome then
    .error (.validation ("Entry " ++ toString i ++ ": cannot provide both \"html\" and \"react\"")
      ("entries[" ++ toString i ++ "]"))
  else
    let html := entry.html.getD ""
    let text := entry.text.getD ""
    match entry.react with
    | none =>
      .ok { toAddr := normalizeEmailAddress entry.toAddr, subject := entry.subject,
            html := html, text := text, tags := entry.tags }
    | some r =>
      match render r with
      | .error _ => .error .render
      | .ok rendered =>
        .ok { toAddr := normalizeEmailAddress entry.toAddr, subject := entry.subject,
              html := rendered.1,
              text := if text != "" then text else rendered.2,
              tags := entry.tags }

/-- The `resolveEntries` loop from index `i`: stop at the first failing
entry, else collect all resolved entries in order. -/
def resolveEntriesAux (render : Renderer) :
    Nat → List BatchEmailEntry → Except BatchCallError (List ResolvedEntry)
  | _, [] => .ok []
  | i, e :: es =>
    match resolveEntry render i e with
    | .error err => .error err
    | .ok r =>
      match resolveEntriesAux render (i + 1) es with
      | .error err => .error err
      | .ok rs => .ok (r :: rs)

/-- `resolveEntries` from `batch.ts`. -/
def resolveEntries (render : Renderer) (entries : List BatchEmailEntry) :
    Except BatchCallError (List ResolvedEntry) :=
  resolveEntriesAux render 0 entries

/-- One `BulkEmailEntryResults` element: SES `Status`, `MessageId`,
`Error`. -/
structure SESOutcome where
  isSuccess : Bool
  messageId : Option String := none
  error : Option String := none
deriving Repr, DecidableEq

/-- `'success' | 'failure'` of a `BatchEntryResult`. -/
inductive EntryStatus where
  | success
  | failure
deriving Repr, DecidableEq

/-- `BatchEntryResult` from `types.ts`. -/
structure BatchEntryResult where
  index : Nat
  messageId : Option String := none
  status : EntryStatus
  error : Option String := none
deriving Repr, DecidableEq

/-- The external SES v2 bulk transport, keyed by the window's starting
offset. -/
def BulkTransport : Type := Nat → List ResolvedEntry → Except Unit (List SESOutcome)

/-- `Array.prototype.map((x, i) => ...)`: map with the element index,
counting from `i`. -/
def mapWithIndex {α β : Type} (f : Nat → α → β) : Nat → List α → List β
  | _, [] => []
  | i, a :: as => f i a :: mapWithIndex f (i + 1) as

/-- `sendChunk` from `batch.ts`: map each returned outcome to its original
index `startIndex + i`; a thrown transport error propagates. -/
def sendChunk (t : BulkTransport) (resolvedEntries : List ResolvedEntry)
    (startIndex : Nat) : Except Unit (List BatchEntryResult) :=
  match t startIndex resolvedEntries with
  | .error e => .error e
  | .ok results =>
    .ok (mapWithIndex (fun i r =>
      { index := startIndex + i, messageId := r.messageId,
        status := if r.isSuccess then .success else .failure,
        error := r.error }) 0 results)

/-- The `for (let offset = 0; ...; offset += CHUNK_SIZE)` loop of
`sendBatch`: per window, on success append the mapped results, on a
chunk-level failure synthesize a failure result for every entry of the
window with the fixed diagnostic, then continue.  The second component
counts the underlying provider calls (one per window, thrown or not). -/
def dispatchChunks (t : BulkTransport) :
    Nat → List ResolvedEntry → List BatchEntryResult × Nat
  | offset, rem =>
    if h : rem = [] then ([], 0)
    else
      let chunk := rem.take CHUNK_SIZE
      let thisChunk :=
        match sendChunk t chunk offset with
        | .ok rs => rs
        | .error _ => mapWithIndex (fun i _ =>
            { index := offset + i, messageId := none, status := .failure,
              error := some "Chunk-level SES error" }) 0 chunk
      let rest := dispatchChunks t (offset + CHUNK_SIZE) (rem.drop CHUNK_SIZE)
      (thisChunk ++ rest.1, rest.2 + 1)
termination_by _ rem => rem.length
decreasing_by
  simp only [List.length_drop, CHUNK_SIZE]
  have := List.length_pos.mpr h
  omega

/-- The window body of one `dispatchChunks` iteration. -/
def windowResults (t : BulkTransport) (offset : Nat)
    (chunk : List ResolvedEntry) : List BatchEntryResult :=
  match sendChunk t chunk offset with
  | .ok rs => rs
  | .error _ => mapWithIndex (fun i _ =>
      { index := offset + i, messageId := none, status := .failure,
        error := some "Chunk-level SES error" }) 0 chunk

/-- Whether an `Except` value is a success. -/
def isOkE {ε α : Type} : Except ε α → Bool
  | .ok _ => true
  | .error _ => false

/-- `SendBatchParams` from `types.ts` (the sender/replyTo/tags fields only
shape the provider command, which lives behind `BulkTransport`). -/
structure SendBatchParams where
  fromAddr : AddressInput
  entries : List BatchEmailEntry
deriving Repr, DecidableEq

/-- `SendBatchResult` from `types.ts`. -/
structure SendBatchResult where
  results : List BatchEntryResult
  successCount : Nat
  failureCount : Nat
deriving Repr, DecidableEq

/-- `sendBatch` from `batch.ts`, paired with the number of underlying
provider calls it performed. -/
def sendBatch (render : Renderer) (t : BulkTransport) (params : SendBatchParams) :
    Except BatchCallError SendBatchResult × Nat :=
  if params.entries.length = 0 then
    (.error (.validation "entries array must not be empty" "entries"), 0)
  else if MAX_ENTRIES < params.entries.length then
    (.error (.validation
      ("Maximum " ++ toString MAX_ENTRIES ++ " entries allowed per batch (got "
        ++ toString params.entries.length ++ ")") "entries"), 0)
  else
    match resolveEntries render params.entries with
    | .error e => (.error e, 0)
    | .ok resolved =>
      let res := dispatchChunks t 0 resolved
      (.ok { results := res.1,
             successCount := (res.1.filter (fun r => r.status == .success)).length,
             failureCount := (res.1.filter (fun r => r.status == .failure)).length },
       res.2)

/-! ## Concrete evaluation inputs -/

/-- A text-only, no-attachment build input (attachment list present but
empty). -/
def c3Params : BuildRawEmailParams :=
  { fromAddr := .str "sender@example.com", toAddrs := [.str "rcpt@example.com"],
    subject := "Hello", text := some "hi", attachments := some [] }

/-- A stored inbound message with message-id `<m1@x>` and no prior
References header. -/
def c1Email : InboxEmail :=
  { emailId := "e1", messageId := "<m1@x>",
    fromAddr := ⟨"orig@example.com", "Original Sender"⟩,
    toAddrs := [⟨"me@example.com", ""⟩],
    subject := "Hi", date := "Mon, 1 Jan 2024 00:00:00 +0000",
    text := some "stored body" }

/-- The same stored message with a prior References header value. -/
def c1EmailWithRefs : InboxEmail :=
  { c1Email with headers := [("references", "<r0@x>")] }

/-- Reply options that do pass an (empty) attachment list, so the builder
runs to completion. -/
def c1ReplyOptions : InboxReplyOptions :=
  { fromAddr := .str "me@example.com", text := some "thanks!",
    attachments := some [] }

/-- A 100-byte buffer attachment with the default (base64) encoding; its
base64 text is 136 characters, so the chunking must split it. -/
def c8Att1 : Attachment :=
  { filename := "long.bin", content := .buffer (List.replicate 100 65) }

/-- A string attachment with a non-base64 declared transfer encoding. -/
def c8Att2 : Attachment :=
  { filename := "raw.txt", content := .str "already encoded",
    encoding := some "utf-8" }

/-- A build input carrying both concrete attachments. -/
def c8Params : BuildRawEmailParams :=
  { fromAddr := .str "a@b", toAddrs := [.str "c@d"], subject := "S",
    text := some "t", attachments := some [c8Att1, c8Att2] }

/-- A valid batch entry for the 75-entry dispatch scenario. -/
def c4Entry : BatchEmailEntry :=
  { toAddr := .str "r@x", subject := "s", text := some "b" }

/-- 75 valid entries: two windows of 50 and 25 under a 50-entry cap. -/
def c4Entries : List BatchEmailEntry := List.replicate 75 c4Entry

/-- What `c4Entry` resolves to. -/
def c4Resolved : ResolvedEntry :=
  { toAddr := "r@x", subject := "s", html := "", text := "b" }

/-- A transport that throws exactly on the second window (offset 50) and
answers every entry of any other window with a success outcome. -/
def c4Transport : BulkTransport := fun off c =>
  if off == 50 then .error ()
  else .ok (c.map (fun _ => { isSuccess := true, messageId := some "mid" }))

/-- A renderer that always throws (never reached by entries without
`react`). -/
def c4Render : Renderer := fun _ => .error ()

/-- A batch entry with a missing subject (validation failure). -/
def c9BadEntry : BatchEmailEntry :=
  { toAddr := .str "r@x", subject := "", text := some "b" }

/-- A batch entry whose react content makes `c4Render` throw (content
resolution failure). -/
def c9ReactEntry : BatchEmailEntry :=
  { toAddr := .str "r@x", subject := "s", react := some 0 }

/-- Raw inbound MIME (as CRLF-split lines) with no `To:` header — a
Bcc-style delivery — whose body contains a line starting with `To:`. -/
def c6Raw : List String :=
  ["From: Original Sender <orig@example.com>", "Subject: Hello", "",
   "To: keep this body line"]

/-- Passthrough forward options with prefix `[FWD]`. -/
def c6Options : InboxForwardOptions :=
  { toAddrs := [.str "dst@example.com"], fromAddr := .str "new@example.com",
    addPfx := some "[FWD]" }

/-! ## Helper lemmas -/

theorem chunk76_length_le (l : List Char) : ∀ c ∈ chunk76 l, c.length ≤ 76 := by
  induction l using chunk76.induct with
  | case1 => intro c hc; simp [chunk76] at hc
  | case2 c cs ih =>
    intro d hd
    simp only [chunk76] at hd
    rcases List.mem_cons.mp hd with h | h
    · subst h
      simp only [List.length_cons, List.length_take]
      omega
    · exact ih d h

theorem data_append (a b : String) : (a ++ b).data = a.data ++ b.data := by
  cases a; cases b; rfl

/-- The loop state of `deriveStatus` always stores the priority of the
status it stores: `highestPriority = STATUS_PRIORITY[highest] || 0`. -/
theorem deriveState_snd_eq (events : List EmailEvent) :
    (deriveState events).2 = priorityOf (deriveState events).1 := by
  unfold deriveState
  induction events using List.reverseRecOn with
  | nil => decide
  | append_singleton es e ih =>
    rw [List.foldl_append]
    simp only [List.foldl_cons, List.foldl_nil]
    unfold deriveStep
    dsimp only
    split
    · rfl
    · exact ih

theorem deriveState_append_singleton (events : List EmailEvent) (e : EmailEvent) :
    deriveState (events ++ [e]) = deriveStep (deriveState events) e := by
  unfold deriveState
  rw [List.foldl_append]
  rfl

/-- A fold over events that all have rank `0` never moves off an
accumulator of positive rank. -/
theorem foldl_deriveStep_zero (events : List EmailEvent) :
    ∀ acc : String × Nat, (∀ e ∈ events, priorityOf (mappedType e.type) = 0) →
      0 < acc.2 → events.foldl deriveStep acc = acc := by
  induction events with
  | nil => intro acc _ _; rfl
  | cons e es ih =>
    intro acc h hpos
    have he : priorityOf (mappedType e.type) = 0 := h e (List.mem_cons_self e es)
    have hstep : deriveStep acc e = acc := by
      unfold deriveStep
      dsimp only
      rw [he]
      rw [if_neg (by omega)]
    rw [List.foldl_cons, hstep]
    exact ih acc (fun x hx => h x (List.mem_cons_of_mem e hx)) hpos

theorem length_mapWithIndex {α β : Type} (f : Nat → α → β) :
    ∀ (l : List α) (i : Nat), (mapWithIndex f i l).length = l.length := by
  intro l
  induction l with
  | nil => intro i; rfl
  | cons a as ih => intro i; simp [mapWithIndex, ih]

theorem mapWithIndex_getElem? {α β : Type} (f : Nat → α → β) :
    ∀ (l : List α) (j k : Nat),
      (mapWithIndex f j l)[k]? = (l[k]?).map (f (j + k)) := by
  intro l
  induction l with
  | nil => intro j k; simp [mapWithIndex]
  | cons a as ih =>
    intro j k
    cases k with
    | zero => simp [mapWithIndex]
    | succ k =>
      simp only [mapWithIndex, List.getElem?_cons_succ]
      rw [ih]
      have h2 : j + 1 + k = j + (k + 1) := by omega
      rw [h2]

/-- The index column of a window result list: `off + 0, off + 1, ...`. -/
theorem mapWithIndex_indices {α : Type} (off : Nat)
    (f : Nat → α → BatchEntryResult) (hf : ∀ i a, (f i a).index = off + i) :
    ∀ (l : List α) (j : Nat),
      (mapWithIndex f j l).map (fun r => r.index) = List.range' (off + j) l.length := by
  intro l
  induction l with
  | nil => intro j; rfl
  | cons a as ih =>
    intro j
    simp only [mapWithIndex, List.map_cons, List.length_cons, List.range'_succ, hf]
    rw [ih (j + 1)]
    have h2 : off + (j + 1) = off + j + 1 := by omega
    rw [h2]

/-- Any window body produced inside `dispatchChunks` (mapped outcomes or
synthesized failures) has one result per window entry, provided a
successful transport call returns one outcome per entry. -/
theorem dispatchChunks_window_length (t : BulkTransport)
    (H : ∀ off c l, t off c = .ok l → l.length = c.length)
    (offset : Nat) (chunk : List ResolvedEntry) :
    (match sendChunk t chunk offset with
      | .ok rs => rs
      | .error _ => mapWithIndex (fun i _ =>
          { index := offset + i, messageId := none, status := .failure,
            error := some "Chunk-level SES error" }) 0 chunk).length = chunk.length := by
  unfold sendChunk
  cases ht : t offset chunk with
  | error e => simp [length_mapWithIndex]
  | ok results => simp [length_mapWithIndex, H offset chunk results ht]

theorem dispatchChunks_eq (t : BulkTransport) (offset : Nat)
    (rem : List ResolvedEntry) (h : rem ≠ []) :
    dispatchChunks t offset rem =
      ((windowResults t offset (rem.take CHUNK_SIZE)) ++
        (dispatchChunks t (offset + CHUNK_SIZE) (rem.drop CHUNK_SIZE)).1,
       (dispatchChunks t (offset + CHUNK_SIZE) (rem.drop CHUNK_SIZE)).2 + 1) := by
  rw [dispatchChunks]
  simp only [dif_neg h]
  rfl

theorem windowResults_indices (t : BulkTransport)
    (H : ∀ off c l, t off c = .ok l → l.length = c.length)
    (offset : Nat) (chunk : List ResolvedEntry) :
    (windowResults t offset chunk).map (fun r => r.index) =
      List.range' offset chunk.length := by
  unfold windowResults sendChunk
  cases ht : t offset chunk with
  | error e =>
    simpa using mapWithIndex_indices offset
      (fun i _ => ({ index := offset + i, messageId := none,
                     status := EntryStatus.failure,
                     error := some "Chunk-level SES error" } : BatchEntryResult))
      (fun i a => rfl) chunk 0
  | ok results =>
    have hlen := H offset chunk results ht
    have hm := mapWithIndex_indices offset
      (fun i r => ({ index := offset + i, messageId := r.messageId,
                     status := if r.isSuccess then EntryStatus.success
                               else EntryStatus.failure,
                     error := r.error } : BatchEntryResult))
      (fun i a => rfl) results 0
    simpa [hlen] using hm

theorem windowResults_length (t : BulkTransport)
    (H : ∀ off c l, t off c = .ok l → l.length = c.length)
    (offset : Nat) (chunk : List ResolvedEntry) :
    (windowResults t offset chunk).length = chunk.length := by
  have := congrArg List.length (windowResults_indices t H offset chunk)
  simpa using this

theorem dispatchChunks_indices (t : BulkTransport)
    (H : ∀ off c l, t off c = .ok l → l.length = c.length) :
    ∀ (n : Nat) (rem : List ResolvedEntry), rem.length = n →
      ∀ (offset : Nat),
      ((dispatchChunks t offset rem).1.map (fun r => r.index)) =
        List.range' offset rem.length := by
  intro n
  induction n using Nat.strong_induction_on with
  | _ n ih =>
    intro rem hlen offset
    by_cases h : rem = []
    · subst h; rw [dispatchChunks]; simp
    · have hpos := List.length_pos.mpr h
      rw [dispatchChunks_eq t offset rem h]
      simp only [List.map_append]
      rw [windowResults_indices t H offset (rem.take CHUNK_SIZE)]
      rw [ih (rem.drop CHUNK_SIZE).length
            (by simp [CHUNK_SIZE]; omega) (rem.drop CHUNK_SIZE) rfl (offset + CHUNK_SIZE)]
      by_cases hle : CHUNK_SIZE ≤ rem.length
      · have h1 : (rem.take CHUNK_SIZE).length = CHUNK_SIZE := by simp; omega
        rw [h1, List.range'_append_1]
        congr 1
        simp
        omega
      · have h1 : (rem.drop CHUNK_SIZE).length = 0 := by simp; omega
        have h2 : (rem.take CHUNK_SIZE).length = rem.length := by simp; omega
        rw [h1, h2]
        simp

theorem dispatchChunks_calls (t : BulkTransport) :
    ∀ (n : Nat) (rem : List ResolvedEntry), rem.length = n → ∀ (offset : Nat),
      (dispatchChunks t offset rem).2 = (rem.length + CHUNK_SIZE - 1) / CHUNK_SIZE := by
  intro n
  induction n using Nat.strong_induction_on with
  | _ n ih =>
    intro rem hlen offset
    by_cases h : rem = []
    · subst h; rw [dispatchChunks]; simp [CHUNK_SIZE]
    · have hpos := List.length_pos.mpr h
      rw [dispatchChunks_eq t offset rem h]
      dsimp only
      rw [ih (rem.drop CHUNK_SIZE).length
            (by simp [CHUNK_SIZE]; omega) (rem.drop CHUNK_SIZE) rfl (offset + CHUNK_SIZE)]
      simp only [List.length_drop, CHUNK_SIZE]
      omega

/-- On a thrown window call every slot of the window body is the
synthesized failure record for its original index. -/
theorem windowResults_failed (t : BulkTransport) (offset : Nat)
    (chunk : List ResolvedEntry) (hfail : t offset chunk = .error ()) :
    ∀ j, j < chunk.length →
      (windowResults t offset chunk)[j]? =
        some { index := offset + j, messageId := none, status := .failure,
               error := some "Chunk-level SES error" } := by
  intro j hj
  unfold windowResults sendChunk
  rw [hfail]
  simp only
  rw [mapWithIndex_getElem?]
  rw [List.getElem?_eq_getElem hj]
  simp

theorem dispatchChunks_failed_window (t : BulkTransport)
    (H : ∀ off c l, t off c = .ok l → l.length = c.length) :
    ∀ (n : Nat) (rem : List ResolvedEntry), rem.length = n →
      ∀ (offset i : Nat), i < rem.length →
      t (offset + CHUNK_SIZE * (i / CHUNK_SIZE))
          ((rem.drop (CHUNK_SIZE * (i / CHUNK_SIZE))).take CHUNK_SIZE) = .error () →
      (dispatchChunks t offset rem).1[i]? =
        some { index := offset + i, messageId := none, status := .failure,
               error := some "Chunk-level SES error" } := by
  intro n
  induction n using Nat.strong_induction_on with
  | _ n ih =>
    intro rem hlen offset i hi hfail
    have h : rem ≠ [] := by
      intro he; subst he; simp at hi
    rw [dispatchChunks_eq t offset rem h]
    dsimp only
    simp only [CHUNK_SIZE] at hfail ⊢
    have hwl : (windowResults t offset (rem.take 50)).length =
        (rem.take 50).length := windowResults_length t H offset _
    by_cases hlt : i < 50
    · have hdiv : i / 50 = 0 := Nat.div_eq_of_lt hlt
      rw [hdiv] at hfail
      simp only [Nat.mul_zero, Nat.add_zero, List.drop_zero] at hfail
      have hcl : i < (rem.take 50).length := by
        simp only [List.length_take]
        omega
      rw [List.getElem?_append_left (by omega)]
      exact windowResults_failed t offset _ hfail i hcl
    · have hge : 50 ≤ i := Nat.le_of_not_lt hlt
      have hlen50 : 50 ≤ rem.length := by omega
      have hwl50 : (windowResults t offset (rem.take 50)).length = 50 := by
        rw [hwl]
        simp only [List.length_take]
        omega
      rw [List.getElem?_append_right (by omega)]
      rw [hwl50]
      have hfail2 : t ((offset + 50) + CHUNK_SIZE * ((i - 50) / CHUNK_SIZE))
          (((rem.drop 50).drop
              (CHUNK_SIZE * ((i - 50) / CHUNK_SIZE))).take CHUNK_SIZE) =
          .error () := by
        simp only [CHUNK_SIZE]
        rw [List.drop_drop]
        have harg : 50 + 50 * ((i - 50) / 50) = 50 * (i / 50) := by omega
        rw [harg]
        have hoff : offset + 50 + 50 * ((i - 50) / 50) = offset + 50 * (i / 50) := by
          omega
        rw [hoff]
        exact hfail
      have hres := ih (rem.drop CHUNK_SIZE).length
        (by simp only [List.length_drop, CHUNK_SIZE]; omega)
        (rem.drop CHUNK_SIZE) rfl (offset + CHUNK_SIZE) (i - 50)
        (by simp only [List.length_drop, CHUNK_SIZE]; omega)
        (by simpa only [CHUNK_SIZE] using hfail2)
      simp only [CHUNK_SIZE] at hres
      rw [hres]
      have hidx : offset + 50 + (i - 50) = offset + i := by omega
      rw [hidx]

theorem resolveEntriesAux_length (render : Renderer) :
    ∀ (entries : List BatchEmailEntry) (i : Nat) (rs : List ResolvedEntry),
      resolveEntriesAux render i entries = .ok rs → rs.length = entries.length := by
  intro entries
  induction entries with
  | nil =>
    intro i rs h
    simp only [resolveEntriesAux] at h
    cases h
    rfl
  | cons e es ih =>
    intro i rs h
    simp only [resolveEntriesAux] at h
    cases h1 : resolveEntry render i e with
    | error err => rw [h1] at h; cases h
    | ok r =>
      rw [h1] at h
      cases h2 : resolveEntriesAux render (i + 1) es with
      | error err => rw [h2] at h; cases h
      | ok rs2 =>
        rw [h2] at h
        cases h
        simp [ih (i + 1) rs2 h2]

/-- Whether `resolveEntry` succeeds does not depend on the entry's
position (the index only shapes the error messages). -/
theorem resolveEntry_isOk_irrel (render : Renderer) (e : BatchEmailEntry)
    (i j : Nat) : isOkE (resolveEntry render i e) = isOkE (resolveEntry render j e) := by
  unfold resolveEntry
  repeat' split
  all_goals rfl

/-- One failing entry anywhere in the list makes the whole resolution
fail, whatever the starting index. -/
theorem resolveEntriesAux_error_of_bad (render : Renderer) :
    ∀ (entries : List BatchEmailEntry) (e : BatchEmailEntry), e ∈ entries →
      isOkE (resolveEntry render 0 e) = false →
      ∀ i, ∃ err, resolveEntriesAux render i entries = .error err := by
  intro entries
  induction entries with
  | nil => intro e he; cases he
  | cons a as ih =>
    intro e he hbad i
    rcases List.mem_cons.mp he with rfl | he2
    · have hbi : isOkE (resolveEntry render i e) = false := by
        rw [resolveEntry_isOk_irrel render e i 0]; exact hbad
      cases h1 : resolveEntry render i e with
      | error err => exact ⟨err, by simp [resolveEntriesAux, h1]⟩
      | ok r => rw [h1] at hbi; simp [isOkE] at hbi
    · cases h1 : resolveEntry render i a with
      | error err => exact ⟨err, by simp [resolveEntriesAux, h1]⟩
      | ok r =>
        obtain ⟨err, herr⟩ := ih e he2 hbad (i + 1)
        exact ⟨err, by simp [resolveEntriesAux, h1, herr]⟩

/-- `replaceFirstLine` rewrites exactly the first matching line: any
non-matching block before it is kept, and everything after it is kept. -/
theorem replaceFirstLine_append (pred : String → Bool) (repl : String → String) :
    ∀ (a : List String) (f : String) (rest : List String),
      (∀ l ∈ a, pred l = false) → pred f = true →
      replaceFirstLine pred repl (a ++ f :: rest) = a ++ repl f :: rest := by
  intro a
  induction a with
  | nil =>
    intro f rest _ hf
    simp [replaceFirstLine, hf]
  | cons x xs ih =>
    intro f rest ha hf
    have hx : pred x = false := ha x (List.mem_cons_self x xs)
    have ih2 := ih f rest (fun l hl => ha l (List.mem_cons_of_mem x hl)) hf
    simp [replaceFirstLine, hx, ih2]

/-- A line built as `pre ++ x` cannot match a header whose first
(lowercased) character differs from the lowercased first character of
`pre`. -/
theorem lineMatches_false_of_head (name pre x : String) (c d : Char)
    (pd td : List Char) (hpre : pre.data = c :: pd) (hname : name.data = d :: td)
    (hne : Char.toLower c ≠ d) :
    lineMatches name (pre ++ x) = false := by
  unfold lineMatches
  rw [data_append, hpre, hname]
  simp only [List.cons_append, List.length_cons, List.take_succ_cons, List.map_cons]
  have hno : ¬(Char.toLower c :: ((pd ++ x.data).take td.length).map Char.toLower =
      d :: td) := by
    intro hcontra
    injection hcontra with h1 _
    exact hne h1
  rw [decide_eq_false hno, Bool.false_and]

theorem lineMatches_to_fromLine (x : String) :
    lineMatches "to:" ("From: " ++ x) = false :=
  lineMatches_false_of_head "to:" "From: " x 'F' 't'
    ['r', 'o', 'm', ':', ' '] ['o', ':'] rfl rfl (by decide)

theorem lineMatches_subject_fromLine (x : String) :
    lineMatches "subject:" ("From: " ++ x) = false :=
  lineMatches_false_of_head "subject:" "From: " x 'F' 's'
    ['r', 'o', 'm', ':', ' '] ['u', 'b', 'j', 'e', 'c', 't', ':'] rfl rfl (by decide)

theorem lineMatches_subject_toLine (x : String) :
    lineMatches "subject:" ("To: " ++ x) = false :=
  lineMatches_false_of_head "subject:" "To: " x 'T' 's'
    ['o', ':', ' '] ['u', 'b', 'j', 'e', 'c', 't', ':'] rfl rfl (by decide)

end WrapsEmail

namespace WrapsEmail

/-! ## Claim theorems -/

/-- C5: the derived status of an event set is the status of maximum
severity rank observed, with ranks ordered
sent < delivered < opened < clicked < suppressed < complained < bounced;
it is independent of timestamps, and appending an event whose rank is at
most the rank of the current derived status leaves the derived status
unchanged. -/
theorem deriveStatus_severity_monotone :
    (priorityOf "sent" < priorityOf "delivered" ∧
     priorityOf "delivered" < priorityOf "opened" ∧
     priorityOf "opened" < priorityOf "clicked" ∧
     priorityOf "clicked" < priorityOf "suppressed" ∧
     priorityOf "suppressed" < priorityOf "complained" ∧
     priorityOf "complained" < priorityOf "bounced") ∧
    (∀ (events : List EmailEvent) (g : Int → Int),
      deriveStatus (events.map (fun e => ⟨e.type, g e.timestamp⟩)) =
        deriveStatus events) ∧
    (∀ (events : List EmailEvent) (e : EmailEvent),
      priorityOf (mappedType e.type) ≤ priorityOf (deriveStatus events) →
      deriveStatus (events ++ [e]) = deriveStatus events) := by
  refine ⟨by decide, ?_, ?_⟩
  · intro events g
    unfold deriveStatus deriveState
    have key : ∀ (l : List EmailEvent) (acc : String × Nat),
        (l.map (fun e => (⟨e.type, g e.timestamp⟩ : EmailEvent))).foldl deriveStep acc =
          l.foldl deriveStep acc := by
      intro l
      induction l with
      | nil => intro acc; rfl
      | cons x xs ih =>
        intro acc
        rw [List.map_cons, List.foldl_cons, List.foldl_cons]
        exact ih _
    rw [key]
  · intro events e h
    unfold deriveStatus
    rw [deriveState_append_singleton]
    unfold deriveStep
    dsimp only
    rw [if_neg]
    rw [deriveState_snd_eq]
    exact not_lt.mpr h

/-- Witness for C5: the spec scenario
`[sent@t0, delivered@t1, bounced@t2, opened@t5]` derives `"bounced"`
despite the later `"opened"`. -/
theorem deriveStatus_severity_monotone_witness :
    deriveStatus
      ([⟨"sent", 0⟩, ⟨"delivered", 1⟩, ⟨"bounced", 2⟩] ++ [⟨"opened", 5⟩]) =
      "bounced" := by
  rw [deriveStatus_severity_monotone.2.2
        [⟨"sent", 0⟩, ⟨"delivered", 1⟩, ⟨"bounced", 2⟩] ⟨"opened", 5⟩ (by decide)]
  decide

/-- C10: a non-empty event list in which every event has rank 0 (no event
type normalizes to a recognized lifecycle status) derives the floor status
`"sent"`. -/
theorem deriveStatus_floor_sent :
    ∀ events : List EmailEvent, events ≠ [] →
      (∀ e ∈ events, priorityOf (mappedType e.type) = 0) →
      deriveStatus events = "sent" := by
  intro events _ h
  unfold deriveStatus deriveState
  rw [foldl_deriveStep_zero events _ h (by decide)]

/-- Witness for C10: a single unrecognized event derives `"sent"`. -/
theorem deriveStatus_floor_sent_witness :
    deriveStatus [⟨"rendering_failure", 7⟩] = "sent" :=
  deriveStatus_floor_sent [⟨"rendering_failure", 7⟩] (by decide) (by decide)

/-- C7: reply subject prefixing is idempotent: a subject already starting
case-insensitively with `Re:` is kept unchanged, any other subject gets
`Re: ` prepended, and applying the computation twice equals applying it
once. -/
theorem replySubject_idempotent :
    (∀ s, testReCI s = true → replySubject s = s) ∧
    (∀ s, testReCI s = false → replySubject s = "Re: " ++ s) ∧
    (∀ s, replySubject (replySubject s) = replySubject s) := by
  refine ⟨?_, ?_, ?_⟩
  · intro s h; unfold replySubject; rw [h]; rfl
  · intro s h; unfold replySubject; rw [h]; rfl
  · intro s
    cases h : testReCI s with
    | true =>
      have h1 : replySubject s = s := by simp [replySubject, h]
      rw [h1]; exact h1
    | false =>
      have step : replySubject s = "Re: " ++ s := by simp [replySubject, h]
      have hre : testReCI ("Re: " ++ s) = true := by
        unfold testReCI
        rw [data_append]
        rfl
      rw [step]
      simp [replySubject, hre]

/-- Witness for C7: replying to subject `"Re: X"` keeps it unchanged, and
replying twice never yields `"Re: Re: X"`. -/
theorem replySubject_idempotent_witness :
    replySubject "Re: X" = "Re: X" ∧
    replySubject (replySubject "Re: X") = replySubject "Re: X" :=
  ⟨replySubject_idempotent.1 "Re: X" (by decide),
   replySubject_idempotent.2.2 "Re: X"⟩

/-- C2: `buildRawEmailMessage` iterates its `attachments` parameter
unconditionally, so any call with the field absent fails with a runtime
type error (`none`) instead of producing a message; wrapped-mode `forward`
never passes attachments, and `reply` forwards whatever the caller gave,
with no fallback to an empty list. -/
theorem buildRaw_missing_attachments_throws :
    (∀ mainB altB p, p.attachments = none →
      buildRawEmailLines mainB altB p = none) ∧
    (∀ mainB altB email options,
      forwardWrappedRaw mainB altB email options = none) ∧
    (∀ mainB altB email options, options.attachments = none →
      replyRaw mainB altB email options = none) := by
  refine ⟨?_, ?_, ?_⟩
  · intro mainB altB p h
    simp [buildRawEmailLines, h]
  · intro mainB altB email options
    simp [forwardWrappedRaw, buildRawEmailLines, forwardWrappedParams]
  · intro mainB altB email options h
    simp [replyRaw, buildRawEmailLines, replyParams, h]

/-- Witness for C2: a concrete wrapped forward and a concrete reply with
the attachments field omitted both produce no message. -/
theorem buildRaw_missing_attachments_throws_witness :
    forwardWrappedRaw "MB" "AB" c1Email
      { toAddrs := [.str "dst@example.com"], fromAddr := .str "me@example.com" } = none ∧
    replyRaw "MB" "AB" c1Email { fromAddr := .str "me@example.com", text := some "hi" } = none ∧
    buildRawEmailLines "MB" "AB"
      { fromAddr := .str "a@b", toAddrs := [.str "c@d"], subject := "S" } = none :=
  ⟨buildRaw_missing_attachments_throws.2.1 "MB" "AB" c1Email _,
   buildRaw_missing_attachments_throws.2.2 "MB" "AB" c1Email _ rfl,
   buildRaw_missing_attachments_throws.1 "MB" "AB" _ rfl⟩

/-- Counterexample for C3: a text-only input with no attachments still
gets the top-level `Content-Type: multipart/mixed` wrapper, not a direct
`text/plain` top-level content type as the claim states. -/
theorem buildRaw_singlepart_cex :
    topContentType ((buildRawEmailLines "MB" "AB" c3Params).getD []) =
      some "Content-Type: multipart/mixed; boundary=\"MB\"" ∧
    topContentType ((buildRawEmailLines "MB" "AB" c3Params).getD []) ≠
      some "Content-Type: text/plain; charset=UTF-8" := by
  decide

/-- C3 (amended): the top-level `Content-Type` header emitted by the
builder is always the `multipart/mixed` wrapper; for an input with an
empty attachment list and exactly one truthy body the single body part is
the sole child of that wrapper and carries the direct body content type. -/
theorem buildRaw_no_attachments_single_body :
    (∀ (mainB : String) (p : BuildRawEmailParams),
      ("Content-Type: multipart/mixed; boundary=\"" ++ mainB ++ "\"")
        ∈ headerLines mainB p) ∧
    (∀ mainB altB p, p.attachments = some [] →
      strTruthy p.text = true → strTruthy p.html = false →
      buildRawEmailLines mainB altB p = some (headerLines mainB p ++
        ["--" ++ mainB, "Content-Type: text/plain; charset=UTF-8",
         "Content-Transfer-Encoding: 7bit", "", p.text.getD "", "",
         "--" ++ mainB ++ "--"])) ∧
    (∀ mainB altB p, p.attachments = some [] →
      strTruthy p.text = false → strTruthy p.html = true →
      buildRawEmailLines mainB altB p = some (headerLines mainB p ++
        ["--" ++ mainB, "Content-Type: text/html; charset=UTF-8",
         "Content-Transfer-Encoding: 7bit", "", p.html.getD "", "",
         "--" ++ mainB ++ "--"])) := by
  refine ⟨?_, ?_, ?_⟩
  · intro mainB p
    simp [headerLines]
  · intro mainB altB p hatt ht hh
    simp [buildRawEmailLines, hatt, buildRawCore, bodyLines, ht, hh]
  · intro mainB altB p hatt ht hh
    simp [buildRawEmailLines, hatt, buildRawCore, bodyLines, ht, hh]

/-- Witness for the amended C3 at the concrete text-only input. -/
theorem buildRaw_no_attachments_single_body_witness :
    buildRawEmailLines "MB" "AB" c3Params = some (headerLines "MB" c3Params ++
      ["--MB", "Content-Type: text/plain; charset=UTF-8",
       "Content-Transfer-Encoding: 7bit", "", "hi", "", "--MB--"]) := by
  have h := buildRaw_no_attachments_single_body.2.1 "MB" "AB" c3Params
    rfl (by decide) (by decide)
  simpa using h

/-- C8: for an attachment with the (default) base64 transfer encoding the
builder emits the base64 content joined by CRLF from lines of length at
most 76; any other declared transfer encoding passes string content
through unmodified. -/
theorem attachment_base64_lines_wrapped :
    ∀ (mainB altB : String) (p : BuildRawEmailParams)
      (atts : List Attachment) (att : Attachment),
      p.attachments = some atts → att ∈ atts →
      ((effEncoding att.encoding = "base64" →
          encodeAttachment att.content ∈ (buildRawEmailLines mainB altB p).getD [] ∧
          encodeAttachment att.content =
            joinSep "\r\n" (encodeAttachmentLines att.content) ∧
          ∀ l ∈ encodeAttachmentLines att.content, l.length ≤ 76) ∧
       (∀ s, effEncoding att.encoding ≠ "base64" → att.content = .str s →
          s ∈ (buildRawEmailLines mainB altB p).getD [])) := by
  intro mainB altB p atts att hatt hmem
  have hbuild : (buildRawEmailLines mainB altB p).getD [] =
      buildRawCore mainB altB p atts := by
    simp [buildRawEmailLines, hatt]
  have hsection : ∀ x, x ∈ attachmentLines mainB att →
      x ∈ (buildRawEmailLines mainB altB p).getD [] := by
    intro x hx
    rw [hbuild]
    unfold buildRawCore
    refine List.mem_append_left _ (List.mem_append_right _ ?_)
    exact List.mem_flatten.mpr ⟨attachmentLines mainB att,
      List.mem_map_of_mem _ hmem, hx⟩
  constructor
  · intro henc
    refine ⟨?_, rfl, ?_⟩
    · apply hsection
      simp [attachmentLines, henc]
    · intro l hl
      obtain ⟨c, hc, hlc⟩ := List.mem_map.mp hl
      subst hlc
      exact chunk76_length_le _ c hc
  · intro s henc hcontent
    apply hsection
    have : ¬ (effEncoding att.encoding == "base64") = true := by
      simpa using henc
    simp [attachmentLines, this, hcontent, contentToString]

/-- Witness for C8: one base64 buffer attachment (100 bytes, so the
encoding spans two lines) and one `utf-8` string attachment in one build. -/
theorem attachment_base64_lines_wrapped_witness :
    (encodeAttachment c8Att1.content ∈
        (buildRawEmailLines "MB" "AB" c8Params).getD [] ∧
      (∀ l ∈ encodeAttachmentLines c8Att1.content, l.length ≤ 76)) ∧
    ("already encoded" ∈ (buildRawEmailLines "MB" "AB" c8Params).getD []) := by
  refine ⟨⟨?_, ?_⟩, ?_⟩
  · exact ((attachment_base64_lines_wrapped "MB" "AB" c8Params [c8Att1, c8Att2]
      c8Att1 rfl (by simp)).1 (by decide)).1
  · exact ((attachment_base64_lines_wrapped "MB" "AB" c8Params [c8Att1, c8Att2]
      c8Att1 rfl (by simp)).1 (by decide)).2.2
  · exact (attachment_base64_lines_wrapped "MB" "AB" c8Params [c8Att1, c8Att2]
      c8Att2 rfl (by simp)).2 "already encoded" (by decide) rfl

/-- C1 (code bug): `WrapsInbox.reply` computes the correct `In-Reply-To`
and `References` values — for message-id `<m1@x>` with no prior References
they are exactly `<m1@x>` and `<m1@x>`, and with prior References `<r0@x>`
the References value is `<r0@x> <m1@x>` — but the raw message actually
built contains neither header, because `buildRawEmailMessage` has no
`customHeaders` parameter and drops the record. -/
theorem reply_threading_headers_dropped :
    replyCustomHeaders c1Email =
      [("In-Reply-To", "<m1@x>"), ("References", "<m1@x>")] ∧
    replyCustomHeaders c1EmailWithRefs =
      [("In-Reply-To", "<m1@x>"), ("References", "<r0@x> <m1@x>")] ∧
    ((replyRaw "MB" "AB" c1Email c1ReplyOptions).getD []).all
      (fun l => !(startsWithStr "In-Reply-To" l) && !(startsWithStr "References" l)) = true ∧
    ((replyRaw "MB" "AB" c1EmailWithRefs c1ReplyOptions).getD []).all
      (fun l => !(startsWithStr "In-Reply-To" l) && !(startsWithStr "References" l)) = true := by
  decide

/-- C4: whenever entry resolution succeeds and every successful provider
call answers one outcome per window entry, `sendBatch` returns exactly one
result per request entry, ordered by original index (`0..n-1`), performs
`⌈n / 50⌉` underlying calls, and any window whose transport call threw
contributes a synthesized fixed-diagnostic failure result for each of its
entries while the remaining windows still dispatch. -/
theorem sendBatch_results_indexed :
    ∀ (render : Renderer) (t : BulkTransport) (params : SendBatchParams)
      (resolved : List ResolvedEntry),
      resolveEntries render params.entries = .ok resolved →
      (∀ off c l, t off c = .ok l → l.length = c.length) →
      params.entries ≠ [] → params.entries.length ≤ MAX_ENTRIES →
      ∃ res : SendBatchResult,
        (sendBatch render t params).1 = .ok res ∧
        (sendBatch render t params).2 =
          (params.entries.length + CHUNK_SIZE - 1) / CHUNK_SIZE ∧
        res.results.length = params.entries.length ∧
        res.results.map (fun r => r.index) = List.range params.entries.length ∧
        (∀ i, i < params.entries.length →
          t (CHUNK_SIZE * (i / CHUNK_SIZE))
              ((resolved.drop (CHUNK_SIZE * (i / CHUNK_SIZE))).take CHUNK_SIZE) =
            .error () →
          res.results[i]? =
            some { index := i, messageId := none, status := .failure,
                   error := some "Chunk-level SES error" }) := by
  intro render t params resolved hres H hne hcap
  have hrlen : resolved.length = params.entries.length :=
    resolveEntriesAux_length render params.entries 0 resolved hres
  have hlen0 : params.entries.length ≠ 0 := by
    intro h0
    exact hne (List.length_eq_zero.mp h0)
  unfold sendBatch
  rw [if_neg hlen0, if_neg (by omega), hres]
  dsimp only
  refine ⟨_, rfl, ?_, ?_, ?_, ?_⟩
  · rw [dispatchChunks_calls t resolved.length resolved rfl 0, hrlen]
  · have hidx := dispatchChunks_indices t H resolved.length resolved rfl 0
    have hl := congrArg List.length hidx
    simpa [hrlen] using hl
  · have hidx := dispatchChunks_indices t H resolved.length resolved rfl 0
    rw [hidx, hrlen, List.range_eq_range']
  · intro i hi hfail
    have hres2 := dispatchChunks_failed_window t H resolved.length resolved rfl 0 i
      (by omega) (by simpa using hfail)
    simpa using hres2

/-- Witness for C4: 75 entries under the 50-entry window cap with the
second window throwing issue exactly 2 provider calls and return 75
results with indices `0..74`; slot 60 (second window) carries the fixed
chunk-level diagnostic. -/
theorem sendBatch_results_indexed_witness :
    ∃ res : SendBatchResult,
      (sendBatch c4Render c4Transport
        { fromAddr := .str "s@x", entries := c4Entries }).1 = .ok res ∧
      (sendBatch c4Render c4Transport
        { fromAddr := .str "s@x", entries := c4Entries }).2 = 2 ∧
      res.results.length = 75 ∧
      res.results.map (fun r => r.index) = List.range 75 ∧
      res.results[60]? =
        some { index := 60, messageId := none, status := .failure,
               error := some "Chunk-level SES error" } := by
  have H : ∀ off c l, c4Transport off c = .ok l → l.length = c.length := by
    intro off c l h
    unfold c4Transport at h
    split at h
    · cases h
    · cases h
      simp
  obtain ⟨res, h1, h2, h3, h4, h5⟩ := sendBatch_results_indexed c4Render c4Transport
    { fromAddr := .str "s@x", entries := c4Entries }
    (List.replicate 75 c4Resolved) rfl H (by decide) (by decide)
  refine ⟨res, h1, ?_, ?_, ?_, ?_⟩
  · rw [h2]; decide
  · rw [h3]; decide
  · rw [h4]; decide
  · exact h5 60 (by decide) rfl

/-- C9: an empty entry list, a list over the 100-entry caller-facing cap,
and any list containing an entry that fails validation or whose react
content fails to render, all make `sendBatch` raise before any provider
call: the result is an error and the underlying call count is zero. -/
theorem sendBatch_failfast :
    (∀ (render : Renderer) (t : BulkTransport) (params : SendBatchParams),
      params.entries = [] →
      sendBatch render t params =
        (.error (.validation "entries array must not be empty" "entries"), 0)) ∧
    (∀ (render : Renderer) (t : BulkTransport) (params : SendBatchParams),
      MAX_ENTRIES < params.entries.length →
      (sendBatch render t params).1 = .error (.validation
        ("Maximum " ++ toString MAX_ENTRIES ++ " entries allowed per batch (got "
          ++ toString params.entries.length ++ ")") "entries") ∧
      (sendBatch render t params).2 = 0) ∧
    (∀ (render : Renderer) (t : BulkTransport) (params : SendBatchParams)
      (e : BatchEmailEntry), e ∈ params.entries →
      isOkE (resolveEntry render 0 e) = false →
      (∃ err, (sendBatch render t params).1 = .error err) ∧
      (sendBatch render t params).2 = 0) := by
  refine ⟨?_, ?_, ?_⟩
  · intro render t params h
    unfold sendBatch
    rw [if_pos (by simp [h])]
  · intro render t params h
    unfold sendBatch
    rw [if_neg (by simp only [MAX_ENTRIES] at h; omega), if_pos h]
    exact ⟨rfl, rfl⟩
  · intro render t params e he hbad
    by_cases h0 : params.entries.length = 0
    · unfold sendBatch
      rw [if_pos h0]
      exact ⟨⟨_, rfl⟩, rfl⟩
    · by_cases hcap : MAX_ENTRIES < params.entries.length
      · unfold sendBatch
        rw [if_neg h0, if_pos hcap]
        exact ⟨⟨_, rfl⟩, rfl⟩
      · obtain ⟨err, herr⟩ := resolveEntriesAux_error_of_bad render params.entries e he hbad 0
        unfold sendBatch resolveEntries
        rw [if_neg h0, if_neg hcap, herr]
        exact ⟨⟨err, rfl⟩, rfl⟩

/-- Witness for C9: the empty batch, a 101-entry batch, a batch with a
missing subject, and a batch whose only entry needs a failing render all
error with zero provider calls. -/
theorem sendBatch_failfast_witness :
    sendBatch c4Render c4Transport { fromAddr := .str "s@x", entries := [] } =
      (.error (.validation "entries array must not be empty" "entries"), 0) ∧
    ((sendBatch c4Render c4Transport
        { fromAddr := .str "s@x", entries := List.replicate 101 c4Entry }).2 = 0) ∧
    ((∃ err, (sendBatch c4Render c4Transport
        { fromAddr := .str "s@x", entries := [c9BadEntry] }).1 = .error err) ∧
      (sendBatch c4Render c4Transport
        { fromAddr := .str "s@x", entries := [c9BadEntry] }).2 = 0) ∧
    ((∃ err, (sendBatch c4Render c4Transport
        { fromAddr := .str "s@x", entries := [c9ReactEntry] }).1 = .error err) ∧
      (sendBatch c4Render c4Transport
        { fromAddr := .str "s@x", entries := [c9ReactEntry] }).2 = 0) := by
  refine ⟨?_, ?_, ?_, ?_⟩
  · exact sendBatch_failfast.1 c4Render c4Transport _ rfl
  · exact (sendBatch_failfast.2.1 c4Render c4Transport
      { fromAddr := .str "s@x", entries := List.replicate 101 c4Entry } (by decide)).2
  · exact sendBatch_failfast.2.2 c4Render c4Transport
      { fromAddr := .str "s@x", entries := [c9BadEntry] } c9BadEntry
      (by decide) (by decide)
  · exact sendBatch_failfast.2.2 c4Render c4Transport
      { fromAddr := .str "s@x", entries := [c9ReactEntry] } c9ReactEntry
      (by decide) (by decide)

/-- Counterexample for C6: the passthrough rewrite regexes search the
whole raw text, so on a stored message with no `To:` header whose body
contains a `To:`-prefixed line, the body line is rewritten to the new
recipients — the body is not preserved byte-for-byte. -/
theorem forwardPassthrough_frame_cex :
    forwardPassthroughLines c6Raw c6Options =
      ["From: new@example.com", "Subject: [FWD] Hello", "",
       "To: dst@example.com"] ∧
    (forwardPassthroughLines c6Raw c6Options)[3]? ≠
      some "To: keep this body line" := by
  decide

/-- C6 (amended): passthrough forward rewrites exactly the first line
matching `/^From:/i`, the first line matching `/^To:/i`, and (for a truthy
prefix) the first line matching `/^Subject:/i` — searched over the whole
raw text.  When the raw lines decompose so that each of these first
matches is the intended header line, only those three lines change: the
From line becomes `From: <new sender>` (so the original sender string is
gone from it), the To line becomes the joined new recipients, the Subject
line gets the prefix, and every other line — headers before and between
them, and the entire remainder (body and attachments) — is preserved
byte-for-byte. -/
theorem forwardPassthrough_rewrites_first_matches :
    ∀ (a b c d : List String) (f tl s : String)
      (options : InboxForwardOptions) (pfx : String),
      options.addPfx = some pfx → pfx ≠ "" →
      lineMatches "from:" f = true → lineMatches "to:" tl = true →
      lineMatches "subject:" s = true →
      (∀ l ∈ a, lineMatches "from:" l = false ∧ lineMatches "to:" l = false ∧
        lineMatches "subject:" l = false) →
      (∀ l ∈ b, lineMatches "to:" l = false ∧ lineMatches "subject:" l = false) →
      (∀ l ∈ c, lineMatches "subject:" l = false) →
      forwardPassthroughLines (a ++ f :: (b ++ tl :: (c ++ s :: d))) options =
        a ++ ("From: " ++ normalizeEmailAddress options.fromAddr) ::
          (b ++ ("To: " ++ joinSep ", " (normalizeEmailAddresses options.toAddrs)) ::
            (c ++ subjectRewrite pfx s :: d)) := by
  intro a b c d f tl s options pfx hp hpne hf htl hs ha hb hc
  unfold forwardPassthroughLines
  rw [hp]
  have hpfx : strTruthy (some pfx) = true := by simp [strTruthy, hpne]
  rw [if_pos hpfx]
  rw [replaceFirstLine_append _ _ a f _ (fun l hl => (ha l hl).1) hf]
  have e1 : a ++ ("From: " ++ normalizeEmailAddress options.fromAddr) ::
        (b ++ tl :: (c ++ s :: d)) =
      (a ++ ("From: " ++ normalizeEmailAddress options.fromAddr) :: b) ++
        tl :: (c ++ s :: d) := by
    simp [List.append_assoc]
  rw [e1]
  have hab : ∀ l ∈ (a ++ ("From: " ++ normalizeEmailAddress options.fromAddr) :: b),
      lineMatches "to:" l = false := by
    intro l hl
    rcases List.mem_append.mp hl with h | h
    · exact (ha l h).2.1
    · rcases List.mem_cons.mp h with rfl | h
      · exact lineMatches_to_fromLine _
      · exact (hb l h).1
  rw [replaceFirstLine_append _ _ _ tl _ hab htl]
  have e2 : (a ++ ("From: " ++ normalizeEmailAddress options.fromAddr) :: b) ++
        ("To: " ++ joinSep ", " (normalizeEmailAddresses options.toAddrs)) ::
          (c ++ s :: d) =
      ((a ++ ("From: " ++ normalizeEmailAddress options.fromAddr) :: b) ++
        ("To: " ++ joinSep ", " (normalizeEmailAddresses options.toAddrs)) :: c) ++
          s :: d := by
    simp [List.append_assoc]
  rw [e2]
  have habc : ∀ l ∈ ((a ++ ("From: " ++ normalizeEmailAddress options.fromAddr) :: b) ++
        ("To: " ++ joinSep ", " (normalizeEmailAddresses options.toAddrs)) :: c),
      lineMatches "subject:" l = false := by
    intro l hl
    rcases List.mem_append.mp hl with h | h
    · rcases List.mem_append.mp h with h2 | h2
      · exact (ha l h2).2.2
      · rcases List.mem_cons.mp h2 with rfl | h2
        · exact lineMatches_subject_fromLine _
        · exact (hb l h2).2
    · rcases List.mem_cons.mp h with rfl | h
      · exact lineMatches_subject_toLine _
      · exact hc l h
  rw [replaceFirstLine_append _ _ _ s _ habc hs]
  simp [List.append_assoc]

/-- Witness for the amended C6: the spec scenario — prefix `[FWD]` on
subject `Hello` yields `Subject: [FWD] Hello`, the From line is exactly
the new sender (the original sender string is absent from it), and the
body is untouched. -/
theorem forwardPassthrough_rewrites_witness :
    forwardPassthroughLines
      ["From: Orig <orig@x>", "To: someone@x", "Subject: Hello", "", "body"]
      { toAddrs := [.str "dst@z"], fromAddr := .str "new@y",
        addPfx := some "[FWD]" } =
      ["From: new@y", "To: dst@z", "Subject: [FWD] Hello", "", "body"] := by
  have h := forwardPassthrough_rewrites_first_matches [] [] [] ["", "body"]
    "From: Orig <orig@x>" "To: someone@x" "Subject: Hello"
    { toAddrs := [.str "dst@z"], fromAddr := .str "new@y",
      addPfx := some "[FWD]" }
    "[FWD]" rfl (by decide) (by decide) (by decide) (by decide)
    (by intro l hl; cases hl) (by intro l hl; cases hl)
    (by intro l hl; cases hl)
  exact h.trans (by decide)

end WrapsEmail
